import Mathlib

/-!
Verification development for a football-match feature preparation pipeline
(`GetData.py` and `PrepareData.py`).

A `Table` shallowly embeds a pandas DataFrame: a list of column names plus a
list of rows, each row a list of cells, where a `none` cell models a missing
value (NaN).  Rationals model the numeric contents exactly; the final
standardisation step, whose parameters involve a square root, lives in `ℝ`.
-/

namespace MLQRT

/-- Shallow embedding of a pandas DataFrame with cell values in `α`:
a `none` cell models NaN. -/
structure Table (α : Type) where
  cols : List String
  rows : List (List (Option α))
deriving DecidableEq

/-- Name of the column at position `j` (empty string when out of range). -/
def colName {α : Type} (t : Table α) (j : Nat) : String := t.cols.getD j ""

/-- Cell of row `r` at column position `j`; out-of-range reads are missing. -/
def cellAt {α : Type} (r : List (Option α)) (j : Nat) : Option α := r.getD j none

/-- The column of cells at position `j`. -/
def colCells {α : Type} (t : Table α) (j : Nat) : List (Option α) :=
  t.rows.map (fun r => cellAt r j)

/-- Restriction of a table to the column positions listed in `js`. -/
def selectIdxs {α : Type} (t : Table α) (js : List Nat) : Table α :=
  ⟨js.map (colName t), t.rows.map (fun r => js.map (fun j => cellAt r j))⟩

/-- Keep exactly the columns whose name satisfies `p`
(pandas `DataFrame.drop(columns=...)` drops columns by name). -/
def filterCols {α : Type} (t : Table α) (p : String → Bool) : Table α :=
  selectIdxs t ((List.range t.cols.length).filter (fun j => p (colName t j)))

namespace DataScaler

/-- GetData.py line 88: per-column count of missing entries
(`self.data.isna().sum()` for one column). -/
def missCount (t : Table ℚ) (j : Nat) : Nat :=
  (colCells t j).countP (fun o => o.isNone)

/-- GetData.py line 88: `self.data.isna().sum() / len(self.data)` for column `j`. -/
def missFrac (t : Table ℚ) (j : Nat) : ℚ :=
  (missCount t j : ℚ) / (t.rows.length : ℚ)

/-- GetData.py line 89: names of the columns whose missing fraction strictly
exceeds the threshold (`empty_data[empty_data > threshold].index`). -/
def sparseDropNames (t : Table ℚ) (th : ℚ) : List String :=
  ((List.range t.cols.length).filter (fun j => decide (th < missFrac t j))).map (colName t)

/-- GetData.py lines 86-91: drop the columns with too many missing values. -/
def dropSparse (t : Table ℚ) (th : ℚ) : Table ℚ :=
  filterCols t (fun c => decide (c ∉ sparseDropNames t th))

/-- pandas `Series.nunique()`: number of distinct non-missing values of column `j`. -/
def nuniq (t : Table ℚ) (j : Nat) : Nat :=
  ((colCells t j).filterMap id).dedup.length

/-- GetData.py line 95: names of the columns with exactly one distinct
non-missing value (`unique_data[unique_data == 1].index`). -/
def constDropNames (t : Table ℚ) : List String :=
  ((List.range t.cols.length).filter (fun j => nuniq t j == 1)).map (colName t)

/-- GetData.py lines 93-97: drop the columns that only have one value. -/
def dropConstant (t : Table ℚ) : Table ℚ :=
  filterCols t (fun c => decide (c ∉ constDropNames t))

/-- pandas `Series.unique().size` for the column named `c`: number of distinct
values, where NaN counts as one extra value when present (pandas `unique`
keeps NaN, collapsing repeated NaNs). -/
def uniqueSize (t : Table ℚ) (c : String) : Nat :=
  (colCells t (t.cols.indexOf c)).dedup.length

/-- GetData.py line 84: the initial feature-column list, computed on the
loaded table before any column is dropped:
`[col for col in self.data.columns if col != self.target_column and col != "ID"
  and self.data[col].unique().size > 1]`. -/
def feature_columns_of (t : Table ℚ) : List String :=
  t.cols.filter (fun c =>
    decide (c ≠ "results") && decide (c ≠ "ID") && decide (1 < uniqueSize t c))

/-- pandas `dropna(how="any")` row predicate: every cell under a column is present. -/
def completeRow (t : Table ℚ) (r : List (Option ℚ)) : Bool :=
  (List.range t.cols.length).all (fun j => (cellAt r j).isSome)

/-- GetData.py line 104: remove rows with missing values. -/
def dropIncompleteRows (t : Table ℚ) : Table ℚ :=
  ⟨t.cols, t.rows.filter (completeRow t)⟩

/-- Exact rational table viewed inside `ℝ` (floats are modelled by reals). -/
def toR (t : Table ℚ) : Table ℝ :=
  ⟨t.cols, t.rows.map (fun r => r.map (fun o => o.map (fun q => (q : ℝ))))⟩

/-- pandas `Series.mean()` of the column named `c` (missing values skipped). -/
noncomputable def colMean (t : Table ℝ) (c : String) : ℝ :=
  let obs := (colCells t (t.cols.indexOf c)).filterMap id
  obs.sum / (obs.length : ℝ)

/-- pandas `Series.std()` of the column named `c`: sample standard deviation
(`ddof = 1`), missing values skipped. -/
noncomputable def colStd (t : Table ℝ) (c : String) : ℝ :=
  let obs := (colCells t (t.cols.indexOf c)).filterMap id
  let m := obs.sum / (obs.length : ℝ)
  Real.sqrt ((obs.map (fun x => (x - m) ^ 2)).sum / ((obs.length : ℝ) - 1))

/-- GetData.py line 65, for one cell of the column being assigned:
`(data[col] - train_data[col].mean()) / train_data[col].std()`. -/
noncomputable def scaleCell (train_data : Table ℝ) (c : String) (v : Option ℝ) : Option ℝ :=
  v.map (fun x => (x - colMean train_data c) / colStd train_data c)

/-- GetData.py line 65: one iteration of the `for col in feature_columns` loop,
assigning the standardised column named `c`. -/
noncomputable def scaleStep (train_data : Table ℝ) (d : Table ℝ) (c : String) : Table ℝ :=
  ⟨d.cols,
   d.rows.map (fun r =>
     (List.range r.length).map (fun j =>
       if colName d j = c then scaleCell train_data c (cellAt r j) else cellAt r j))⟩

/-- GetData.py lines 45-66 (`scale_data`): for each listed feature column in
turn, replace each value by `(value - mean(train_data[col])) / std(train_data[col])`. -/
noncomputable def scale_data (data : Table ℝ) (feature_columns : List String)
    (train_data : Table ℝ) : Table ℝ :=
  feature_columns.foldl (scaleStep train_data) data

/-- The two parquet files the scaler can load (`data/prepared_data_train.parquet`
and `data/prepared_data_test.parquet`). -/
structure Env where
  trainTable : Table ℚ
  testTable : Table ℚ
deriving DecidableEq

/-- GetData.py lines 68-75 (`load_data`): branch on the `train` flag. -/
def load_data (train : Bool) (env : Env) : Table ℚ :=
  if train then env.trainTable else env.testTable

/-- GetData.py lines 86-97: the two column-dropping passes of `prepare_data`,
in source order (sparsity threshold 0.2, then constant columns). -/
def cleanColumns (data : Table ℚ) : Table ℚ :=
  dropConstant (dropSparse data (1 / 5))

/-- GetData.py lines 84 and 100: the feature columns computed on the original
loaded table, then restricted to the columns surviving the two drops. -/
def prepared_feature_columns (data : Table ℚ) : List String :=
  (feature_columns_of data).filter (fun c => decide (c ∈ (cleanColumns data).cols))

/-- GetData.py lines 77-108 (`prepare_data`): load, select feature columns,
drop sparse then constant columns, restrict the feature columns, drop
incomplete rows, then self-scale.  Returns the prepared table and the
feature-column list (the `self.data` / `self.feature_columns` attributes). -/
noncomputable def prepare_data (train : Bool) (env : Env) : Table ℝ × List String :=
  let data := load_data train env
  let fc := prepared_feature_columns data
  let d := dropIncompleteRows (cleanColumns data)
  (scale_data (toR d) fc (toR d), fc)

/-- Result triple of `get_data`. -/
structure Output where
  data : Table ℝ
  feature_columns : List String
  target_column : String

/-- GetData.py lines 110-129 (`get_data`).  In the non-training branch the
code runs `self.prepare_data()` (which, since `self.train` is false, loads
and prepares the TEST parquet), copies the result into `train_data`,
re-reads the raw test parquet, and scales it against `train_data`. -/
noncomputable def get_data (train : Bool) (env : Env) : Output :=
  if train then
    ⟨(prepare_data true env).1, (prepare_data true env).2, "results"⟩
  else
    ⟨scale_data (toR env.testTable) (prepare_data false env).2 (prepare_data false env).1,
     (prepare_data false env).2, "results"⟩

end DataScaler

namespace DataPreparer

/-- Python truthiness of a float cell (`if x['DRAW']`): NaN is truthy,
`0.0` is falsy, any other float is truthy. -/
def truthy (v : Option ℚ) : Bool :=
  match v with
  | some q => decide (q ≠ 0)
  | none => true

/-- The comparison `x['HOME_WINS'] > 0` on a float cell: NaN compares false. -/
def posCell (v : Option ℚ) : Bool :=
  match v with
  | some q => decide (0 < q)
  | none => false

/-- PrepareData.py line 165, the row lambda:
`0 if x['HOME_WINS'] > 0 else 1 if x['DRAW'] else 2`. -/
def matchLabel (cols : List String) (r : List (Option ℚ)) : ℚ :=
  if posCell (cellAt r (cols.indexOf "HOME_WINS")) then 0
  else if truthy (cellAt r (cols.indexOf "DRAW")) then 1
  else 2

/-- Row of `t` padded to the column count (pandas rows are always aligned
with the columns; ragged embedded rows read as missing). -/
def padRow {α : Type} (t : Table α) (r : List (Option α)) : List (Option α) :=
  (List.range t.cols.length).map (fun j => cellAt r j)

/-- pandas `data[name] = series` for a name that is not yet a column:
the new column is appended last, with one value per row. -/
def assignCol {α : Type} (t : Table α) (name : String)
    (f : List (Option α) → Option α) : Table α :=
  ⟨t.cols ++ [name], t.rows.map (fun r => padRow t r ++ [f r])⟩

/-- PrepareData.py lines 164-166: derive the `results` label per row, then
drop the three indicator columns `HOME_WINS`, `DRAW`, `AWAY_WINS`. -/
def deriveTarget (t : Table ℚ) : Table ℚ :=
  let u := assignCol t "results" (fun r => some (matchLabel t.cols r))
  filterCols u (fun c => decide (c ∉ ["HOME_WINS", "DRAW", "AWAY_WINS"]))

/-- PrepareData.py lines 97-104 (`remove_columns`): drop each excluded column
when present (dropping by name, no error when absent). -/
def remove_columns (t : Table ℚ) (excluded : List String) : Table ℚ :=
  filterCols t (fun c => decide (c ∉ excluded))

/-- PrepareData.py lines 106-128 (`rename_columns`): when nonempty, add the
given prefix and/or suffix to every column name except `ID`. -/
def rename_columns {α : Type} (t : Table α) (pfx sfx : String) : Table α :=
  let c1 := if pfx = "" then t.cols else t.cols.map (fun c => if c = "ID" then c else pfx ++ c)
  let c2 := if sfx = "" then c1 else c1.map (fun c => if c = "ID" then c else c ++ sfx)
  ⟨c2, t.rows⟩

/-- pandas `Series.max()` over observed values (`none` when no value). -/
def maxQ (l : List ℚ) : Option ℚ := l.maximum

/-- pandas `Series.min()` over observed values (`none` when no value). -/
def minQ (l : List ℚ) : Option ℚ := l.minimum

/-- pandas `Series.mean()` over observed values (`none` when no value). -/
def meanQ (l : List ℚ) : Option ℚ :=
  if l = [] then none else some (l.sum / (l.length : ℚ))

/-- pandas `Series.median()` over observed values: middle of the sorted list,
or the average of the two middle values for an even count. -/
def medianQ (l : List ℚ) : Option ℚ :=
  if l = [] then none
  else
    let s := List.insertionSort (fun a b => a ≤ b) l
    if s.length % 2 = 1 then some (s.getD (s.length / 2) 0)
    else some ((s.getD (s.length / 2 - 1) 0 + s.getD (s.length / 2) 0) / 2)

/-- Distinct non-missing `ID` values, in first-appearance order
(pandas groupby drops NaN keys). -/
def idKeys (t : Table ℚ) : List ℚ :=
  ((colCells t (t.cols.indexOf "ID")).filterMap id).dedup

/-- pandas groupby lists the group keys in ascending order. -/
def sortedIdKeys (t : Table ℚ) : List ℚ :=
  List.insertionSort (fun a b => a ≤ b) (idKeys t)

/-- The rows of the group with `ID = v`. -/
def groupRows (t : Table ℚ) (v : ℚ) : List (List (Option ℚ)) :=
  t.rows.filter (fun r => cellAt r (t.cols.indexOf "ID") == some v)

/-- Column positions other than the `ID` column, in order. -/
def attrIdxs (t : Table ℚ) : List Nat :=
  (List.range t.cols.length).filter (fun j => decide (j ≠ t.cols.indexOf "ID"))

/-- Observed (non-missing) values of the attribute at position `j` in the
group with `ID = v` (pandas aggregations skip NaN). -/
def groupObs (t : Table ℚ) (v : ℚ) (j : Nat) : List ℚ :=
  (groupRows t v).filterMap (fun r => cellAt r j)

/-- One aggregated row of `prepare_player_data`: the group key, then the five
statistic blocks side by side (`pd.concat(..., axis=1)`): all sums, then all
maxima, then minima, means and medians.  An empty observation list sums to 0
(pandas groupby sum) and yields NaN for the other four statistics. -/
def aggRow (t : Table ℚ) (v : ℚ) : List (Option ℚ) :=
  some v ::
    ((attrIdxs t).map (fun j => some (groupObs t v j).sum)
      ++ (attrIdxs t).map (fun j => maxQ (groupObs t v j))
      ++ (attrIdxs t).map (fun j => minQ (groupObs t v j))
      ++ (attrIdxs t).map (fun j => meanQ (groupObs t v j))
      ++ (attrIdxs t).map (fun j => medianQ (groupObs t v j)))

/-- PrepareData.py lines 130-156 (`prepare_player_data`): group by `ID`,
compute sum/max/min/mean/median for every remaining column, suffix each
statistic block's column names, and concatenate the five blocks.  The groupby
index `ID` is materialised as the first column (pandas later merges on that
index level by name).  The second argument is unused, exactly as in the
source. -/
def prepare_player_data (t : Table ℚ) (_pfx : String) : Table ℚ :=
  ⟨"ID" :: ((attrIdxs t).map (fun j => colName t j ++ "_SUM")
      ++ (attrIdxs t).map (fun j => colName t j ++ "_MAX")
      ++ (attrIdxs t).map (fun j => colName t j ++ "_MIN")
      ++ (attrIdxs t).map (fun j => colName t j ++ "_MEAN")
      ++ (attrIdxs t).map (fun j => colName t j ++ "_MEDIAN")),
    (sortedIdKeys t).map (aggRow t)⟩

/-- pandas `pd.merge(A, B, on="ID", how="left")`: every row of `A` is kept;
each matching row of `B` (key equality; missing keys match missing keys)
contributes its non-key cells, and an unmatched left row is completed with
missing cells.  The key column of `B` is not repeated. -/
def leftJoin (A B : Table ℚ) : Table ℚ :=
  let ai := A.cols.indexOf "ID"
  let bi := B.cols.indexOf "ID"
  ⟨A.cols ++ B.cols.eraseIdx bi,
    A.rows.flatMap (fun a =>
      let ms := B.rows.filter (fun b => cellAt b bi == cellAt a ai)
      if ms.isEmpty then [a ++ List.replicate (B.cols.eraseIdx bi).length none]
      else ms.map (fun b => a ++ b.eraseIdx bi))⟩

/-- PrepareData.py lines 158-183, the body of `prepare_data` once `self.mode`
has been read: column removal, target derivation (train mode only), the
namespacing renames, player aggregation, and the left-join chain. -/
def prepareDataBody (mode : String) (excluded : List String)
    (data_match data_home_team data_away_team data_home_players data_away_players : Table ℚ) :
    Table ℚ :=
  let dht := remove_columns data_home_team excluded
  let dhp := remove_columns data_home_players excluded
  let dat := remove_columns data_away_team excluded
  let dap := remove_columns data_away_players excluded
  let dm := if mode = "train" then deriveTarget data_match else data_match
  let dht2 := rename_columns dht "HOME_" ""
  let dat2 := rename_columns dat "AWAY_" ""
  let dhp2 := rename_columns dhp "HOME_PLAYERS_" ""
  let dap2 := rename_columns dap "AWAY_PLAYERS_" ""
  let hPrep := prepare_player_data dhp2 "HOME_PLAYERS_"
  let aPrep := prepare_player_data dap2 "AWAY_PLAYERS_"
  let d0 := if mode = "train" then leftJoin dm dht2 else dht2
  leftJoin (leftJoin (leftJoin d0 dat2) hPrep) aPrep

/-- Python runtime error raised by reading a never-assigned attribute. -/
inductive PyErr where
  | attributeError : String → PyErr
deriving DecidableEq

/-- The attribute state of a `DataPreparer` object.  `mode` is `Option`-valued
because Python objects simply lack attributes that were never assigned. -/
structure State where
  train : Bool
  save_to_excel : Bool
  colstonotconsider : List String
  mode : Option String
  data_match : Table ℚ
  data_home_team : Table ℚ
  data_home_players : Table ℚ
  data_away_team : Table ℚ
  data_away_players : Table ℚ

/-- PrepareData.py lines 46-73 (`__init__`): the mode flag is stored under the
attribute name `train`; no attribute named `mode` is ever assigned.  The five
tables stand for what `load_data` read from disk. -/
def init (train save_to_excel : Bool) (colstonotconsider : Option (List String))
    (dm dht dhp dat dap : Table ℚ) : State :=
  { train := train
    save_to_excel := save_to_excel
    colstonotconsider := colstonotconsider.getD ["TEAM_NAME", "LEAGUE", "PLAYER_NAME", "POSITION"]
    mode := none
    data_match := dm
    data_home_team := dht
    data_home_players := dhp
    data_away_team := dat
    data_away_players := dap }

/-- PrepareData.py lines 158-183 (`prepare_data`): after `remove_columns`
(line 162, which cannot fail), line 164 evaluates `self.mode == "train"`;
when the attribute was never assigned this raises `AttributeError` before any
merge is built.  Otherwise the merge chain runs. -/
def prepare_data (s : State) : Except PyErr (Table ℚ) :=
  match s.mode with
  | none => .error (.attributeError "mode")
  | some m =>
      .ok (prepareDataBody m s.colstonotconsider s.data_match s.data_home_team
        s.data_away_team s.data_home_players s.data_away_players)

end DataPreparer

namespace DataScaler

/-- Row-level form of one iteration of the `scale_data` loop: same cell
transformation as `scaleStep`, expressed over a single row with a fixed
column-name list. -/
noncomputable def stepRow (cols : List String) (train_data : Table ℝ)
    (r : List (Option ℝ)) (c : String) : List (Option ℝ) :=
  (List.range r.length).map (fun j =>
    if cols.getD j "" = c then scaleCell train_data c (cellAt r j) else cellAt r j)

/-- Heap model of the Python call `scale_data(data, feature_columns,
train_data)`: the DataFrame bound to `data` lives at address `ref`; the loop
assigns its columns in place and the function returns the same object. -/
noncomputable def scale_data_inplace (heap : Nat → Table ℝ) (ref : Nat)
    (feature_columns : List String) (train_data : Table ℝ) : (Nat → Table ℝ) × Nat :=
  (Function.update heap ref (scale_data (heap ref) feature_columns train_data), ref)

/-- The column of cells under the column named `c` (pandas `data[c]`,
single-occurrence column names). -/
def colCellsName (t : Table ℝ) (c : String) : List (Option ℝ) :=
  colCells t (t.cols.indexOf c)

end DataScaler

/-! Concrete tables and environments used to witness the theorems below. -/

/-- Concrete table with a single column whose missing fraction is exactly
one fifth. -/
def boundaryTable : Table ℚ :=
  ⟨["A"], [[some 1], [some 1], [some 1], [some 1], [none]]⟩

/-- Table on which the code's feature-column rule and an observed-values-only
rule disagree: column `X` has exactly one distinct observed value plus a
missing value. -/
def nanColumnTable : Table ℚ := ⟨["ID", "X"], [[some 1, some 1], [some 2, none]]⟩

/-- Concrete outcome table covering the one-hot rows (1,0,0), (0,1,0),
(0,0,1), the double-truthy row (1,1,0) and the all-falsy row (0,0,0). -/
def outcomeTable : Table ℚ :=
  ⟨["ID", "HOME_WINS", "DRAW", "AWAY_WINS"],
    [[some 10, some 1, some 0, some 0],
     [some 11, some 0, some 1, some 0],
     [some 12, some 0, some 0, some 1],
     [some 13, some 1, some 1, some 0],
     [some 14, some 0, some 0, some 0]]⟩

/-- The spec's aggregation example: two player rows for match 1 with goals 2
and 3. -/
def goalsTable : Table ℚ := ⟨["ID", "goals"], [[some 1, some 2], [some 1, some 3]]⟩

/-- One-row left table for the join witnesses. -/
def joinLeftTable : Table ℚ := ⟨["ID", "L"], [[some 1, some 5]]⟩

/-- One-row right table whose key matches nothing in `joinLeftTable`. -/
def joinRightTable : Table ℚ := ⟨["ID", "R"], [[some 2, some 7]]⟩

/-- Environment whose test parquet has a varying column `A`. -/
def envVarying : DataScaler.Env :=
  ⟨⟨["ID"], []⟩, ⟨["ID", "A"], [[some 1, some 1], [some 2, some 2]]⟩⟩

/-- Environment with the same train parquet as `envVarying` but a constant
test column `A`. -/
def envConstant : DataScaler.Env :=
  ⟨⟨["ID"], []⟩, ⟨["ID", "A"], [[some 1, some 1], [some 2, some 1]]⟩⟩

/-- Small real-valued table used to witness the scaling theorems. -/
noncomputable def rScaleTable : Table ℝ := ⟨["ID", "A"], [[some 1, some 2]]⟩

/-- A heap whose every address holds `rScaleTable`. -/
noncomputable def constHeap : Nat → Table ℝ := fun _ => rScaleTable

/-! General lemmas about positional column selection. -/

theorem getD_map_lt {α β : Type} (f : α → β) (l : List α) (p : Nat) (h : p < l.length)
    (d : α) (d2 : β) : (l.map f).getD p d2 = f (l.getD p d) := by
  rw [List.getD_eq_getElem _ _ (by simpa using h), List.getD_eq_getElem _ _ h,
    List.getElem_map]

theorem getD_range_lt (n p : Nat) (h : p < n) (d : Nat) : (List.range n).getD p d = p := by
  rw [List.getD_eq_getElem _ _ (by simpa using h), List.getElem_range]

theorem map_getD_range {α : Type} (l : List α) (d : α) :
    (List.range l.length).map (fun j => l.getD j d) = l := by
  apply List.ext_getElem (by simp)
  intro i h1 h2
  rw [List.getElem_map, List.getElem_range, List.getD_eq_getElem _ _ h2]

theorem filter_range_map_getD {α : Type} (l : List α) (p : α → Bool) (d : α) :
    ((List.range l.length).filter (fun j => p (l.getD j d))).map (fun j => l.getD j d)
      = l.filter p := by
  induction l using List.reverseRecOn with
  | nil => simp
  | append_singleton l a ih =>
      have hlen : (l ++ [a]).length = l.length + 1 := by simp
      rw [hlen, List.range_succ, List.filter_append, List.map_append, List.filter_append]
      have h1 : (List.range l.length).filter (fun j => p ((l ++ [a]).getD j d))
          = (List.range l.length).filter (fun j => p (l.getD j d)) := by
        apply List.filter_congr
        intro x hx
        rw [List.getD_append _ _ _ _ (List.mem_range.mp hx)]
      have h2 : ∀ x ∈ (List.range l.length).filter (fun j => p (l.getD j d)),
          (fun j => (l ++ [a]).getD j d) x = (fun j => l.getD j d) x := by
        intro x hx
        have := List.mem_range.mp (List.mem_filter.mp hx).1
        exact List.getD_append _ _ _ _ this
      have h3 : (l ++ [a]).getD l.length d = a := by
        rw [List.getD_append_right _ _ _ _ (le_refl _)]
        simp
      rw [h1, List.map_congr_left h2, ih]
      by_cases hp : p a
      · simp [List.filter_cons, h3, hp]
      · simp [List.filter_cons, h3, hp]

theorem cols_selectIdxs {α : Type} (t : Table α) (js : List Nat) :
    (selectIdxs t js).cols = js.map (colName t) := rfl

theorem rows_length_selectIdxs {α : Type} (t : Table α) (js : List Nat) :
    (selectIdxs t js).rows.length = t.rows.length := by
  simp [selectIdxs]

theorem row_length_selectIdxs {α : Type} (t : Table α) (js : List Nat) :
    ∀ r ∈ (selectIdxs t js).rows, r.length = js.length := by
  intro r hr
  simp only [selectIdxs, List.mem_map] at hr
  obtain ⟨r0, _, hr0⟩ := hr
  simp [← hr0]

theorem colCells_selectIdxs {α : Type} (t : Table α) (js : List Nat) (q : Nat)
    (h : q < js.length) :
    colCells (selectIdxs t js) q = colCells t (js.getD q 0) := by
  unfold colCells selectIdxs cellAt
  simp only [List.map_map]
  apply List.map_congr_left
  intro r _
  exact getD_map_lt _ _ _ h 0 none

theorem cols_filterCols {α : Type} (t : Table α) (p : String → Bool) :
    (filterCols t p).cols = t.cols.filter p := by
  rw [filterCols, cols_selectIdxs]
  exact filter_range_map_getD t.cols p ""

theorem selectIdxs_range_self {α : Type} (t : Table α)
    (h : ∀ r ∈ t.rows, r.length = t.cols.length) :
    selectIdxs t (List.range t.cols.length) = t := by
  obtain ⟨cols, rows⟩ := t
  simp only [selectIdxs, Table.mk.injEq]
  constructor
  · exact map_getD_range cols ""
  · have : ∀ r ∈ rows, (List.range cols.length).map (fun j => cellAt r j) = r := by
      intro r hr
      have hr' : r.length = cols.length := h r hr
      rw [← hr']
      exact map_getD_range r none
    calc rows.map (fun r => (List.range cols.length).map (fun j => cellAt r j))
        = rows.map id := List.map_congr_left (by intro r hr; simp [this r hr])
      _ = rows := List.map_id rows

/-! Idempotence machinery: both column-dropping passes of `prepare_data` keep
exactly the columns whose name is not in a per-column-statistic drop list,
and the statistic of a surviving column is unchanged by the pass. -/

theorem pass_stat_idem (stat : List (Option ℚ) → Nat → Bool)
    (passNames : Table ℚ → List String)
    (hnames : ∀ t : Table ℚ, passNames t = ((List.range t.cols.length).filter
        (fun j => stat (colCells t j) t.rows.length)).map (colName t))
    (pass : Table ℚ → Table ℚ)
    (hpass : ∀ t : Table ℚ, pass t = filterCols t (fun c => decide (c ∉ passNames t)))
    (t : Table ℚ) : pass (pass t) = pass t := by
  set js := (List.range t.cols.length).filter
    (fun j => decide (colName t j ∉ passNames t)) with hjs
  have hu : pass t = selectIdxs t js := by rw [hpass]; rfl
  set u := selectIdxs t js with hudef
  have hulen : u.cols.length = js.length := by
    rw [hudef, cols_selectIdxs, List.length_map]
  have hstat : ∀ q, q < js.length → stat (colCells u q) u.rows.length = false := by
    intro q hq
    set j := js.getD q 0 with hjdef
    have hmem : j ∈ js := by
      rw [hjdef, List.getD_eq_getElem _ _ hq]; exact List.getElem_mem hq
    rw [hjs] at hmem
    have hmem2 := List.mem_filter.mp hmem
    have hlt : j < t.cols.length := List.mem_range.mp hmem2.1
    have hnot : colName t j ∉ passNames t := by
      simpa using hmem2.2
    have hcells : colCells u q = colCells t j :=
      colCells_selectIdxs t js q hq
    have hrows : u.rows.length = t.rows.length := rows_length_selectIdxs t js
    rw [hcells, hrows]
    by_contra hfalse
    have hstat2 : stat (colCells t j) t.rows.length = true := by
      revert hfalse
      cases stat (colCells t j) t.rows.length <;> simp
    apply hnot
    rw [hnames]
    apply List.mem_map.mpr
    refine ⟨j, ?_, rfl⟩
    exact List.mem_filter.mpr ⟨List.mem_range.mpr hlt, hstat2⟩
  have hempty : passNames u = [] := by
    rw [hnames]
    have : (List.range u.cols.length).filter
        (fun j => stat (colCells u j) u.rows.length) = [] := by
      apply List.filter_eq_nil_iff.mpr
      intro q hq
      have := hstat q (by rw [← hulen]; exact List.mem_range.mp hq)
      simp [this]
    rw [this]; rfl
  have hfinal : pass u = u := by
    rw [hpass, hempty, filterCols]
    have hfilter : (List.range u.cols.length).filter
        (fun j => decide (colName u j ∉ ([] : List String)))
          = List.range u.cols.length := by
      apply List.filter_eq_self.mpr
      intro a _
      simp
    rw [hfilter]
    apply selectIdxs_range_self
    intro r hr
    rw [row_length_selectIdxs t js r (hudef ▸ hr), hulen]
  rw [← hu] at hfinal
  exact hfinal

/-- C9: applying `drop_sparse_columns` twice with the same threshold equals
applying it once, and likewise for `drop_constant_columns`: every column that
survives the first pass also survives a second pass (its missing fraction and
its distinct-value count are unchanged by dropping other columns). -/
theorem drop_passes_idempotent :
    ∀ (t : Table ℚ) (th : ℚ),
      DataScaler.dropSparse (DataScaler.dropSparse t th) th = DataScaler.dropSparse t th ∧
      DataScaler.dropConstant (DataScaler.dropConstant t) = DataScaler.dropConstant t := by
  intro t th
  constructor
  · exact pass_stat_idem
      (fun cells n => decide (th < (cells.countP (fun o => o.isNone) : ℚ) / (n : ℚ)))
      (fun t => DataScaler.sparseDropNames t th)
      (fun _ => rfl)
      (fun t => DataScaler.dropSparse t th)
      (fun _ => rfl) t
  · exact pass_stat_idem
      (fun cells _ => (cells.filterMap id).dedup.length == 1)
      DataScaler.constDropNames
      (fun _ => rfl)
      DataScaler.dropConstant
      (fun _ => rfl) t

/-- C6: with the default threshold 0.2, `drop_sparse_columns` retains a column
exactly when its fraction of missing values over all rows does not strictly
exceed the threshold; in particular a column at exactly 0.2 is kept and any
column above 0.2 is dropped. -/
theorem dropSparse_strict_threshold :
    ∀ (t : Table ℚ), t.cols.Nodup → ∀ j, j < t.cols.length →
      (colName t j ∈ (DataScaler.dropSparse t (1 / 5)).cols ↔
        DataScaler.missFrac t j ≤ 1 / 5) := by
  intro t hnd j hj
  rw [DataScaler.dropSparse, cols_filterCols, List.mem_filter]
  have hmemcols : colName t j ∈ t.cols := by
    rw [colName, List.getD_eq_getElem _ _ hj]; exact List.getElem_mem hj
  constructor
  · rintro ⟨-, hdec⟩
    have hnot : colName t j ∉ DataScaler.sparseDropNames t (1 / 5) := by simpa using hdec
    by_contra hgt
    push_neg at hgt
    apply hnot
    rw [DataScaler.sparseDropNames]
    exact List.mem_map.mpr
      ⟨j, List.mem_filter.mpr ⟨List.mem_range.mpr hj, by simpa using hgt⟩, rfl⟩
  · intro hle
    refine ⟨hmemcols, ?_⟩
    simp only [decide_eq_true_eq]
    intro hmem
    rw [DataScaler.sparseDropNames] at hmem
    obtain ⟨j2, hj2mem, hj2eq⟩ := List.mem_map.mp hmem
    have hj2f := List.mem_filter.mp hj2mem
    have hj2lt : j2 < t.cols.length := List.mem_range.mp hj2f.1
    have hj2j : j2 = j := by
      have e1 : colName t j2 = t.cols[j2] := by rw [colName, List.getD_eq_getElem _ _ hj2lt]
      have e2 : colName t j = t.cols[j] := by rw [colName, List.getD_eq_getElem _ _ hj]
      have h1 : t.cols[j2] = t.cols[j] := by rw [← e1, ← e2, hj2eq]
      exact (List.Nodup.getElem_inj_iff hnd).mp h1
    rw [hj2j] at hj2f
    have : (1 : ℚ) / 5 < DataScaler.missFrac t j := by simpa using hj2f.2
    exact absurd hle (not_le.mpr this)

/-- Witness for `dropSparse_strict_threshold` at a concrete table whose only
column has missing fraction exactly 0.2. -/
theorem dropSparse_strict_threshold_witness :
    colName boundaryTable 0 ∈ (DataScaler.dropSparse boundaryTable (1 / 5)).cols ↔
      DataScaler.missFrac boundaryTable 0 ≤ 1 / 5 :=
  dropSparse_strict_threshold boundaryTable (by decide) 0 (by decide)

/-- C7 counterexample: column `X` of `nanColumnTable` has exactly one distinct
observed (non-missing) value, yet GetData.py line 84 puts it in the
feature-column list, because `Series.unique()` also counts the missing value. -/
theorem feature_columns_observed_counterexample :
    "X" ∈ DataScaler.feature_columns_of nanColumnTable ∧
      ((colCells nanColumnTable 1).filterMap id).dedup.length = 1 := by
  constructor <;> decide

/-- C7 (amended): the feature-column list is computed once against the
original loaded table — it contains exactly the columns other than `ID` and
`results` with more than one distinct value there, where a missing value
counts as one extra distinct value — and is afterwards only restricted to the
columns surviving the drops, never recomputed on the pruned table. -/
theorem feature_columns_once_and_restricted :
    ∀ (train : Bool) (env : DataScaler.Env),
      (DataScaler.prepare_data train env).2
          = (DataScaler.feature_columns_of (DataScaler.load_data train env)).filter
              (fun c =>
                decide (c ∈ (DataScaler.cleanColumns (DataScaler.load_data train env)).cols)) ∧
      (∀ c, c ∈ DataScaler.feature_columns_of (DataScaler.load_data train env) ↔
          c ∈ (DataScaler.load_data train env).cols ∧ c ≠ "results" ∧ c ≠ "ID" ∧
            1 < DataScaler.uniqueSize (DataScaler.load_data train env) c) := by
  intro train env
  constructor
  · rfl
  · intro c
    rw [DataScaler.feature_columns_of, List.mem_filter]
    simp only [Bool.and_eq_true, decide_eq_true_eq, and_assoc]

/-- Selecting columns by a name predicate preserves the cells of a kept
column, located by name (duplicate-free column names). -/
theorem colCells_filterCols_name {α : Type} (t : Table α) (p : String → Bool) (c : String)
    (hnd : t.cols.Nodup) (hmem : c ∈ t.cols) (hp : p c = true) :
    colCells (filterCols t p) ((filterCols t p).cols.indexOf c)
      = colCells t (t.cols.indexOf c) := by
  have hcols : (filterCols t p).cols = t.cols.filter p := cols_filterCols t p
  have hcf : c ∈ t.cols.filter p := List.mem_filter.mpr ⟨hmem, hp⟩
  set js := (List.range t.cols.length).filter (fun j => p (colName t j)) with hjs
  have hmapjs : js.map (colName t) = t.cols.filter p := filter_range_map_getD t.cols p ""
  have hjslen : js.length = (t.cols.filter p).length := by
    rw [← hmapjs, List.length_map]
  set k := (filterCols t p).cols.indexOf c with hk
  have hk2 : k = (t.cols.filter p).indexOf c := by rw [hk, hcols]
  have hklt : k < (t.cols.filter p).length := by
    rw [hk2]; exact List.indexOf_lt_length.mpr hcf
  have hkjs : k < js.length := by rw [hjslen]; exact hklt
  have h1 : colCells (filterCols t p) k = colCells t (js.getD k 0) :=
    colCells_selectIdxs t js k hkjs
  have hjmem : js.getD k 0 ∈ js := by
    rw [List.getD_eq_getElem _ _ hkjs]; exact List.getElem_mem hkjs
  have hjlt : js.getD k 0 < t.cols.length := by
    have := (List.mem_filter.mp (hjs ▸ hjmem)).1
    exact List.mem_range.mp this
  have hname : colName t (js.getD k 0) = c := by
    have e1 : (js.map (colName t)).getD k "" = colName t (js.getD k 0) :=
      getD_map_lt (colName t) js k hkjs 0 ""
    have hilt2 : List.indexOf c (List.filter p t.cols) < (List.filter p t.cols).length :=
      List.indexOf_lt_length.mpr hcf
    have e4 : (List.filter p t.cols).getD k "" = c := by
      rw [hk2, List.getD_eq_getElem _ _ hilt2]
      exact List.getElem_indexOf hilt2
    rw [← e1, hmapjs]
    exact e4
  have hidx : js.getD k 0 = t.cols.indexOf c := by
    have hilt : t.cols.indexOf c < t.cols.length := List.indexOf_lt_length.mpr hmem
    have e2 : t.cols[js.getD k 0] = t.cols[t.cols.indexOf c] := by
      have e3 : t.cols[js.getD k 0] = colName t (js.getD k 0) := by
        rw [colName, List.getD_eq_getElem _ _ hjlt]
      rw [e3, hname]
      exact (List.getElem_indexOf hilt).symm
    exact (List.Nodup.getElem_inj_iff hnd).mp e2
  rw [h1, hidx]

/-! Lemmas about the scaling loop. -/

theorem stepRow_length (cols : List String) (tr : Table ℝ) (r : List (Option ℝ))
    (c : String) : (DataScaler.stepRow cols tr r c).length = r.length := by
  simp [DataScaler.stepRow]

theorem scaleStep_eq_map (tr d : Table ℝ) (c : String) :
    DataScaler.scaleStep tr d c
      = ⟨d.cols, d.rows.map (fun r => DataScaler.stepRow d.cols tr r c)⟩ := rfl

theorem scale_data_eq_rows_map :
    ∀ (fcs : List String) (d tr : Table ℝ),
      DataScaler.scale_data d fcs tr
        = ⟨d.cols, d.rows.map (fun r => fcs.foldl (DataScaler.stepRow d.cols tr) r)⟩ := by
  intro fcs
  induction fcs with
  | nil =>
      intro d tr
      obtain ⟨cols, rows⟩ := d
      simp [DataScaler.scale_data]
  | cons c fcs ih =>
      intro d tr
      have step1 : DataScaler.scale_data d (c :: fcs) tr
          = DataScaler.scale_data (DataScaler.scaleStep tr d c) fcs tr := by
        rw [DataScaler.scale_data, DataScaler.scale_data, List.foldl_cons]
      rw [step1, ih, scaleStep_eq_map]
      simp only [List.map_map]
      congr 1

theorem cellAt_stepRow (cols : List String) (tr : Table ℝ) (r : List (Option ℝ))
    (c : String) (j : Nat) :
    cellAt (DataScaler.stepRow cols tr r c) j =
      if j < r.length then
        (if cols.getD j "" = c then DataScaler.scaleCell tr c (cellAt r j) else cellAt r j)
      else none := by
  by_cases h : j < r.length
  · rw [if_pos h]
    show (List.map _ (List.range r.length)).getD j none = _
    rw [getD_map_lt _ _ _ (by simpa using h) 0 none, getD_range_lt _ _ h 0]
  · rw [if_neg h]
    show (List.map _ (List.range r.length)).getD j none = none
    rw [List.getD_eq_default]
    simpa using le_of_not_lt h

theorem cellAt_foldl_stepRow (tr : Table ℝ) (cols : List String) :
    ∀ (fcs : List String), fcs.Nodup → ∀ (r : List (Option ℝ)) (j : Nat), j < r.length →
      cellAt (fcs.foldl (DataScaler.stepRow cols tr) r) j =
        if cols.getD j "" ∈ fcs then
          DataScaler.scaleCell tr (cols.getD j "") (cellAt r j)
        else cellAt r j := by
  intro fcs
  induction fcs with
  | nil => intro _ r j _; simp
  | cons c fcs ih =>
      intro hnd r j hj
      have hnd2 := List.nodup_cons.mp hnd
      have hlen : j < (DataScaler.stepRow cols tr r c).length := by
        rw [stepRow_length]; exact hj
      rw [List.foldl_cons, ih hnd2.2 _ j hlen, cellAt_stepRow, if_pos hj]
      by_cases hc : cols.getD j "" = c
      · have hnmem : cols.getD j "" ∉ fcs := by rw [hc]; exact hnd2.1
        rw [if_pos hc, if_neg hnmem, if_pos (by rw [hc]; exact List.mem_cons_self c fcs), hc]
      · rw [if_neg hc]
        by_cases hmem : cols.getD j "" ∈ fcs
        · rw [if_pos hmem, if_pos (List.mem_cons_of_mem c hmem)]
        · rw [if_neg hmem,
            if_neg (by rw [List.mem_cons]; push_neg; exact ⟨hc, hmem⟩)]

theorem cellAt_foldl_stepRow_not_mem (tr : Table ℝ) (cols : List String) :
    ∀ (fcs : List String) (r : List (Option ℝ)) (j : Nat), cols.getD j "" ∉ fcs →
      cellAt (fcs.foldl (DataScaler.stepRow cols tr) r) j = cellAt r j := by
  intro fcs
  induction fcs with
  | nil => intro r j _; rfl
  | cons c fcs ih =>
      intro r j h
      rw [List.foldl_cons, ih _ j (fun hm => h (List.mem_cons_of_mem c hm)),
        cellAt_stepRow]
      by_cases hj : j < r.length
      · rw [if_pos hj, if_neg (fun he => h (by rw [he]; exact List.mem_cons_self c fcs))]
      · rw [if_neg hj]
        show none = cellAt r j
        rw [cellAt, List.getD_eq_default _ _ (le_of_not_lt hj)]

/-- C8: `scale_data` maps each row independently through a fixed per-row
transformation (so for a fixed reference table the output rows are invariant
under permutation or duplication of the input rows, shown here by the
splitting law over list concatenation), and on distinct feature columns each
listed cell becomes `(value - mean(train_data[col])) / std(train_data[col])`
while unlisted cells are untouched. -/
theorem scale_data_rowwise_and_formula :
    (∀ (d : Table ℝ) (fcs : List String) (tr : Table ℝ),
        DataScaler.scale_data d fcs tr
          = ⟨d.cols, d.rows.map (fun r => fcs.foldl (DataScaler.stepRow d.cols tr) r)⟩) ∧
    (∀ (cs fcs : List String) (tr : Table ℝ) (l1 l2 : List (List (Option ℝ))),
        (DataScaler.scale_data ⟨cs, l1 ++ l2⟩ fcs tr).rows
          = (DataScaler.scale_data ⟨cs, l1⟩ fcs tr).rows
            ++ (DataScaler.scale_data ⟨cs, l2⟩ fcs tr).rows) ∧
    (∀ (d : Table ℝ) (fcs : List String) (tr : Table ℝ), fcs.Nodup →
        ∀ i j, i < d.rows.length → j < (d.rows.getD i []).length →
          cellAt ((DataScaler.scale_data d fcs tr).rows.getD i []) j
            = if colName d j ∈ fcs then
                DataScaler.scaleCell tr (colName d j) (cellAt (d.rows.getD i []) j)
              else cellAt (d.rows.getD i []) j) := by
  refine ⟨fun d fcs tr => scale_data_eq_rows_map fcs d tr, ?_, ?_⟩
  · intro cs fcs tr l1 l2
    rw [scale_data_eq_rows_map, scale_data_eq_rows_map, scale_data_eq_rows_map]
    exact List.map_append _ l1 l2
  · intro d fcs tr hnd i j hi hj
    rw [scale_data_eq_rows_map]
    show cellAt ((d.rows.map (fun r => fcs.foldl (DataScaler.stepRow d.cols tr) r)).getD i []) j = _
    rw [getD_map_lt _ _ _ hi []]
    exact cellAt_foldl_stepRow tr d.cols fcs hnd _ j hj

/-- Witness for `scale_data_rowwise_and_formula`: the formula clause applied
at a concrete one-row table scaled against itself on feature column `A`. -/
theorem scale_data_rowwise_and_formula_witness :
    cellAt ((DataScaler.scale_data rScaleTable ["A"] rScaleTable).rows.getD 0 []) 1
      = if colName rScaleTable 1 ∈ ["A"] then
          DataScaler.scaleCell rScaleTable (colName rScaleTable 1)
            (cellAt (rScaleTable.rows.getD 0 []) 1)
        else cellAt (rScaleTable.rows.getD 0 []) 1 :=
  scale_data_rowwise_and_formula.2.2 rScaleTable ["A"] rScaleTable (by decide) 0 1
    (by decide) (by decide)

/-- C10: in the heap model of the in-place loop, `scale_data` returns the very
object it mutated (same reference, other addresses untouched), and every
column of the data whose name is not listed in `feature_columns` — such as
`ID` and `results` — is unchanged in the result. -/
theorem scale_data_frame_and_inplace :
    ∀ (heap : Nat → Table ℝ) (ref : Nat) (fcs : List String) (tr : Table ℝ),
      (DataScaler.scale_data_inplace heap ref fcs tr).2 = ref ∧
      (DataScaler.scale_data_inplace heap ref fcs tr).1 ref
        = DataScaler.scale_data (heap ref) fcs tr ∧
      (∀ r2, r2 ≠ ref → (DataScaler.scale_data_inplace heap ref fcs tr).1 r2 = heap r2) ∧
      (DataScaler.scale_data (heap ref) fcs tr).cols = (heap ref).cols ∧
      (∀ c, c ∈ (heap ref).cols → c ∉ fcs →
        DataScaler.colCellsName (DataScaler.scale_data (heap ref) fcs tr) c
          = DataScaler.colCellsName (heap ref) c) := by
  intro heap ref fcs tr
  refine ⟨rfl, Function.update_same ref _ heap, ?_, ?_, ?_⟩
  · intro r2 hne
    exact Function.update_noteq hne _ heap
  · rw [scale_data_eq_rows_map]
  · intro c hmem hnot
    have hcols : (DataScaler.scale_data (heap ref) fcs tr).cols = (heap ref).cols := by
      rw [scale_data_eq_rows_map]
    rw [DataScaler.colCellsName, DataScaler.colCellsName, hcols]
    set j0 := (heap ref).cols.indexOf c with hj0
    have hj0lt : j0 < (heap ref).cols.length := List.indexOf_lt_length.mpr hmem
    have hname : (heap ref).cols.getD j0 "" = c := by
      rw [List.getD_eq_getElem _ _ hj0lt]
      exact List.getElem_indexOf hj0lt
    rw [scale_data_eq_rows_map]
    show ((heap ref).rows.map _).map _ = _
    rw [List.map_map]
    apply List.map_congr_left
    intro r _
    show cellAt (fcs.foldl (DataScaler.stepRow (heap ref).cols tr) r) j0 = cellAt r j0
    exact cellAt_foldl_stepRow_not_mem tr (heap ref).cols fcs r j0 (hname ▸ hnot)

/-- Witness for `scale_data_frame_and_inplace`: the `ID` column of a concrete
table is untouched when only column `A` is listed. -/
theorem scale_data_frame_and_inplace_witness :
    DataScaler.colCellsName (DataScaler.scale_data (constHeap 0) ["A"] rScaleTable) "ID"
      = DataScaler.colCellsName (constHeap 0) "ID" :=
  (scale_data_frame_and_inplace constHeap 0 ["A"] rScaleTable).2.2.2.2 "ID"
    (by decide) (by decide)

/-- C2: every `DataPreparer` built by `__init__`, in training or test mode,
lacks the `mode` attribute (the flag is stored as `train`), so `prepare_data`
raises `AttributeError` when it reads `self.mode` and never returns a merged
table. -/
theorem DataPreparer.prepare_data_always_attribute_error :
    ∀ (train save_to_excel : Bool) (cols0 : Option (List String))
      (dm dht dhp dat dap : Table ℚ),
      DataPreparer.prepare_data
          (DataPreparer.init train save_to_excel cols0 dm dht dhp dat dap)
        = Except.error (DataPreparer.PyErr.attributeError "mode") := by
  intro train s c dm dht dhp dat dap
  rfl

theorem indexOf_append_not_mem {α : Type} [DecidableEq α] {a : α} {l1 l2 : List α}
    (h : a ∉ l1) : (l1 ++ l2).indexOf a = l1.length + l2.indexOf a := by
  induction l1 with
  | nil => simp
  | cons b l1 ih =>
      rw [List.cons_append, List.indexOf_cons]
      have hba : (b == a) = false := by
        rw [beq_eq_false_iff_ne]
        intro he
        exact h (he ▸ List.mem_cons_self b l1)
      rw [hba]
      have := ih (fun hm => h (List.mem_cons_of_mem b hm))
      simp only [cond_false, this, List.length_cons]
      omega

/-- C3: `derive_target` appends a single `results` label per outcome row —
0 when the home-win cell is truthy (value 1), else 1 when the draw cell is
truthy, else 2, so one-hot rows map as (1,0,0) to 0, (0,1,0) to 1,
(0,0,1) to 2, double-truthy rows resolve home-win first, and all-falsy rows
fall silently to 2 — and drops the three indicator columns afterwards. -/
theorem derive_target_labels :
    ∀ (t : Table ℚ), t.cols.Nodup → "results" ∉ t.cols →
      "HOME_WINS" ∈ t.cols → "DRAW" ∈ t.cols → "AWAY_WINS" ∈ t.cols →
      (∀ r ∈ t.rows,
        (cellAt r (t.cols.indexOf "HOME_WINS") = some 0 ∨
          cellAt r (t.cols.indexOf "HOME_WINS") = some 1) ∧
        (cellAt r (t.cols.indexOf "DRAW") = some 0 ∨
          cellAt r (t.cols.indexOf "DRAW") = some 1)) →
      ((DataPreparer.deriveTarget t).cols
          = (t.cols ++ ["results"]).filter
              (fun c => decide (c ∉ ["HOME_WINS", "DRAW", "AWAY_WINS"])) ∧
        colCells (DataPreparer.deriveTarget t)
            ((DataPreparer.deriveTarget t).cols.indexOf "results")
          = t.rows.map (fun r => some (DataPreparer.matchLabel t.cols r)) ∧
        (∀ r ∈ t.rows,
          (cellAt r (t.cols.indexOf "HOME_WINS") = some 1 →
            DataPreparer.matchLabel t.cols r = 0) ∧
          (cellAt r (t.cols.indexOf "HOME_WINS") = some 0 →
            cellAt r (t.cols.indexOf "DRAW") = some 1 →
            DataPreparer.matchLabel t.cols r = 1) ∧
          (cellAt r (t.cols.indexOf "HOME_WINS") = some 0 →
            cellAt r (t.cols.indexOf "DRAW") = some 0 →
            DataPreparer.matchLabel t.cols r = 2))) := by
  intro t hnd hres hHW hDR hAW _hdom
  refine ⟨?_, ?_, ?_⟩
  · rw [DataPreparer.deriveTarget, cols_filterCols]
    rfl
  · have hndu : (t.cols ++ ["results"]).Nodup := by
      rw [List.nodup_append]
      refine ⟨hnd, by simp, ?_⟩
      intro a ha hb
      rw [List.mem_singleton] at hb
      exact hres (hb ▸ ha)
    have hmemu : "results" ∈ t.cols ++ ["results"] := by simp
    have hpu : (fun c => decide (c ∉ ["HOME_WINS", "DRAW", "AWAY_WINS"])) "results" = true := by
      decide
    have hcc := colCells_filterCols_name
      (DataPreparer.assignCol t "results" (fun r => some (DataPreparer.matchLabel t.cols r)))
      (fun c => decide (c ∉ ["HOME_WINS", "DRAW", "AWAY_WINS"])) "results" hndu hmemu hpu
    rw [DataPreparer.deriveTarget]
    rw [hcc]
    have hidx : (t.cols ++ ["results"]).indexOf "results" = t.cols.length := by
      rw [indexOf_append_not_mem hres]
      simp [List.indexOf_cons]
    show colCells (DataPreparer.assignCol t "results"
      (fun r => some (DataPreparer.matchLabel t.cols r)))
        ((t.cols ++ ["results"]).indexOf "results") = _
    rw [hidx, colCells, DataPreparer.assignCol]
    simp only [List.map_map]
    apply List.map_congr_left
    intro r _
    show cellAt (DataPreparer.padRow t r ++ [some (DataPreparer.matchLabel t.cols r)])
      t.cols.length = _
    have hplen : (DataPreparer.padRow t r).length = t.cols.length := by
      simp [DataPreparer.padRow]
    rw [cellAt, List.getD_append_right _ _ _ _ (by rw [hplen]), hplen]
    simp
  · intro r _hr
    refine ⟨?_, ?_, ?_⟩
    · intro h1
      rw [DataPreparer.matchLabel, h1]
      have hpos : DataPreparer.posCell (some 1) = true := by decide
      rw [hpos]
      simp
    · intro h1 h2
      rw [DataPreparer.matchLabel, h1, h2]
      have hpos : DataPreparer.posCell (some 0) = false := by decide
      have htr : DataPreparer.truthy (some 1) = true := by decide
      rw [hpos, htr]
      simp
    · intro h1 h2
      rw [DataPreparer.matchLabel, h1, h2]
      have hpos : DataPreparer.posCell (some 0) = false := by decide
      have htr : DataPreparer.truthy (some 0) = false := by decide
      rw [hpos, htr]
      simp

/-- Witness for `derive_target_labels` at `outcomeTable`, together with the
fully evaluated label column: rows (1,0,0), (0,1,0), (0,0,1), (1,1,0),
(0,0,0) receive labels 0, 1, 2, 0, 2. -/
theorem derive_target_labels_witness :
    ((DataPreparer.deriveTarget outcomeTable).cols
        = (outcomeTable.cols ++ ["results"]).filter
            (fun c => decide (c ∉ ["HOME_WINS", "DRAW", "AWAY_WINS"])) ∧
      colCells (DataPreparer.deriveTarget outcomeTable)
          ((DataPreparer.deriveTarget outcomeTable).cols.indexOf "results")
        = outcomeTable.rows.map
            (fun r => some (DataPreparer.matchLabel outcomeTable.cols r)) ∧
      (∀ r ∈ outcomeTable.rows,
        (cellAt r (outcomeTable.cols.indexOf "HOME_WINS") = some 1 →
          DataPreparer.matchLabel outcomeTable.cols r = 0) ∧
        (cellAt r (outcomeTable.cols.indexOf "HOME_WINS") = some 0 →
          cellAt r (outcomeTable.cols.indexOf "DRAW") = some 1 →
          DataPreparer.matchLabel outcomeTable.cols r = 1) ∧
        (cellAt r (outcomeTable.cols.indexOf "HOME_WINS") = some 0 →
          cellAt r (outcomeTable.cols.indexOf "DRAW") = some 0 →
          DataPreparer.matchLabel outcomeTable.cols r = 2))) ∧
    outcomeTable.rows.map (fun r => DataPreparer.matchLabel outcomeTable.cols r)
      = [0, 1, 2, 0, 2] :=
  ⟨derive_target_labels outcomeTable (by decide) (by decide) (by decide) (by decide)
      (by decide) (by decide),
    by decide⟩

/-- C5: in training mode `prepare_data` builds the flat table by left-joining
the derived-target table with the namespaced home-team table, then the
namespaced away-team table, then the aggregated home-player block, then the
aggregated away-player block; in non-training mode the chain starts from the
namespaced home-team table alone.  All joins are keyed on `ID` with left-join
semantics: every left row survives into the result, and a left row with no
matching right key is completed with missing cells. -/
theorem prepare_data_merge_chain :
    (∀ (excluded : List String) (dm dht dat dhp dap : Table ℚ),
        DataPreparer.prepareDataBody "train" excluded dm dht dat dhp dap
          = DataPreparer.leftJoin
              (DataPreparer.leftJoin
                (DataPreparer.leftJoin
                  (DataPreparer.leftJoin (DataPreparer.deriveTarget dm)
                    (DataPreparer.rename_columns
                      (DataPreparer.remove_columns dht excluded) "HOME_" ""))
                  (DataPreparer.rename_columns
                    (DataPreparer.remove_columns dat excluded) "AWAY_" ""))
                (DataPreparer.prepare_player_data
                  (DataPreparer.rename_columns
                    (DataPreparer.remove_columns dhp excluded) "HOME_PLAYERS_" "")
                  "HOME_PLAYERS_"))
              (DataPreparer.prepare_player_data
                (DataPreparer.rename_columns
                  (DataPreparer.remove_columns dap excluded) "AWAY_PLAYERS_" "")
                "AWAY_PLAYERS_")) ∧
    (∀ (mode : String), mode ≠ "train" →
      ∀ (excluded : List String) (dm dht dat dhp dap : Table ℚ),
        DataPreparer.prepareDataBody mode excluded dm dht dat dhp dap
          = DataPreparer.leftJoin
              (DataPreparer.leftJoin
                (DataPreparer.leftJoin
                  (DataPreparer.rename_columns
                    (DataPreparer.remove_columns dht excluded) "HOME_" "")
                  (DataPreparer.rename_columns
                    (DataPreparer.remove_columns dat excluded) "AWAY_" ""))
                (DataPreparer.prepare_player_data
                  (DataPreparer.rename_columns
                    (DataPreparer.remove_columns dhp excluded) "HOME_PLAYERS_" "")
                  "HOME_PLAYERS_"))
              (DataPreparer.prepare_player_data
                (DataPreparer.rename_columns
                  (DataPreparer.remove_columns dap excluded) "AWAY_PLAYERS_" "")
                "AWAY_PLAYERS_")) ∧
    (∀ (A B : Table ℚ), ∀ a ∈ A.rows,
        ∃ rest, a ++ rest ∈ (DataPreparer.leftJoin A B).rows) ∧
    (∀ (A B : Table ℚ), ∀ a ∈ A.rows,
        (∀ b ∈ B.rows,
          cellAt b (B.cols.indexOf "ID") ≠ cellAt a (A.cols.indexOf "ID")) →
        a ++ List.replicate (B.cols.eraseIdx (B.cols.indexOf "ID")).length none
          ∈ (DataPreparer.leftJoin A B).rows) := by
  refine ⟨?_, ?_, ?_, ?_⟩
  · intro excluded dm dht dat dhp dap
    rfl
  · intro mode hne excluded dm dht dat dhp dap
    simp only [DataPreparer.prepareDataBody, if_neg hne]
  · intro A B a ha
    by_cases hms : (B.rows.filter (fun b => cellAt b (B.cols.indexOf "ID")
        == cellAt a (A.cols.indexOf "ID"))).isEmpty
    · have h : (a ++ List.replicate ((B.cols.eraseIdx (B.cols.indexOf "ID")).length) none)
          ∈ (if (B.rows.filter (fun b => cellAt b (B.cols.indexOf "ID")
                == cellAt a (A.cols.indexOf "ID"))).isEmpty
             then [a ++ List.replicate ((B.cols.eraseIdx (B.cols.indexOf "ID")).length) none]
             else (B.rows.filter (fun b => cellAt b (B.cols.indexOf "ID")
                == cellAt a (A.cols.indexOf "ID"))).map
                  (fun b => a ++ b.eraseIdx (B.cols.indexOf "ID"))) := by
        rw [if_pos hms]
        exact List.mem_singleton.mpr rfl
      exact ⟨_, List.mem_flatMap.mpr ⟨a, ha, h⟩⟩
    · have hnil : (B.rows.filter (fun b => cellAt b (B.cols.indexOf "ID")
          == cellAt a (A.cols.indexOf "ID"))) ≠ [] := by
        intro h0
        exact hms (by rw [h0]; rfl)
      obtain ⟨b, hb⟩ := List.exists_mem_of_ne_nil _ hnil
      have h : (a ++ b.eraseIdx (B.cols.indexOf "ID"))
          ∈ (if (B.rows.filter (fun b => cellAt b (B.cols.indexOf "ID")
                == cellAt a (A.cols.indexOf "ID"))).isEmpty
             then [a ++ List.replicate ((B.cols.eraseIdx (B.cols.indexOf "ID")).length) none]
             else (B.rows.filter (fun b => cellAt b (B.cols.indexOf "ID")
                == cellAt a (A.cols.indexOf "ID"))).map
                  (fun b => a ++ b.eraseIdx (B.cols.indexOf "ID"))) := by
        rw [if_neg hms]
        exact List.mem_map_of_mem _ hb
      exact ⟨_, List.mem_flatMap.mpr ⟨a, ha, h⟩⟩
  · intro A B a ha hnomatch
    have hms : (B.rows.filter (fun b => cellAt b (B.cols.indexOf "ID")
        == cellAt a (A.cols.indexOf "ID"))).isEmpty := by
      have : (B.rows.filter (fun b => cellAt b (B.cols.indexOf "ID")
          == cellAt a (A.cols.indexOf "ID"))) = [] := by
        apply List.filter_eq_nil_iff.mpr
        intro b hb hbeq
        exact hnomatch b hb (beq_iff_eq.mp hbeq)
      rw [this]
      rfl
    have h : (a ++ List.replicate ((B.cols.eraseIdx (B.cols.indexOf "ID")).length) none)
        ∈ (if (B.rows.filter (fun b => cellAt b (B.cols.indexOf "ID")
              == cellAt a (A.cols.indexOf "ID"))).isEmpty
           then [a ++ List.replicate ((B.cols.eraseIdx (B.cols.indexOf "ID")).length) none]
           else (B.rows.filter (fun b => cellAt b (B.cols.indexOf "ID")
              == cellAt a (A.cols.indexOf "ID"))).map
                (fun b => a ++ b.eraseIdx (B.cols.indexOf "ID"))) := by
      rw [if_pos hms]
      exact List.mem_singleton.mpr rfl
    exact List.mem_flatMap.mpr ⟨a, ha, h⟩

/-- Witness for `prepare_data_merge_chain`: the non-training chain shape at
concrete tables, row survival, and the missing-cells completion of an
unmatched left row. -/
theorem prepare_data_merge_chain_witness :
    (DataPreparer.prepareDataBody "test" [] joinLeftTable joinLeftTable joinRightTable
        joinLeftTable joinRightTable
      = DataPreparer.leftJoin
          (DataPreparer.leftJoin
            (DataPreparer.leftJoin
              (DataPreparer.rename_columns
                (DataPreparer.remove_columns joinLeftTable []) "HOME_" "")
              (DataPreparer.rename_columns
                (DataPreparer.remove_columns joinRightTable []) "AWAY_" ""))
            (DataPreparer.prepare_player_data
              (DataPreparer.rename_columns
                (DataPreparer.remove_columns joinLeftTable []) "HOME_PLAYERS_" "")
              "HOME_PLAYERS_"))
          (DataPreparer.prepare_player_data
            (DataPreparer.rename_columns
              (DataPreparer.remove_columns joinRightTable []) "AWAY_PLAYERS_" "")
            "AWAY_PLAYERS_")) ∧
    (∃ rest, [some (1 : ℚ), some 5] ++ rest
        ∈ (DataPreparer.leftJoin joinLeftTable joinRightTable).rows) ∧
    [some (1 : ℚ), some 5]
        ++ List.replicate
            (joinRightTable.cols.eraseIdx (joinRightTable.cols.indexOf "ID")).length none
      ∈ (DataPreparer.leftJoin joinLeftTable joinRightTable).rows :=
  ⟨prepare_data_merge_chain.2.1 "test" (by decide) [] joinLeftTable joinLeftTable
      joinRightTable joinLeftTable joinRightTable,
    prepare_data_merge_chain.2.2.1 joinLeftTable joinRightTable
      [some 1, some 5] (by decide),
    prepare_data_merge_chain.2.2.2 joinLeftTable joinRightTable
      [some 1, some 5] (by decide) (by decide)⟩

theorem indexOf_map_eq (l : List String) (f : String → String) (a : String)
    (hf : ∀ c ∈ l, (f c = a ↔ c = a)) : (l.map f).indexOf a = l.indexOf a := by
  induction l with
  | nil => rfl
  | cons c l ih =>
      rw [List.map_cons, List.indexOf_cons, List.indexOf_cons]
      have hfc := hf c (List.mem_cons_self c l)
      by_cases hca : c = a
      · have h1 : (f c == a) = true := beq_iff_eq.mpr (hfc.mpr hca)
        have h2 : (c == a) = true := beq_iff_eq.mpr hca
        rw [h1, h2]
        rfl
      · have h1 : (f c == a) = false := by
          rw [beq_eq_false_iff_ne]; exact fun he => hca (hfc.mp he)
        have h2 : (c == a) = false := by
          rw [beq_eq_false_iff_ne]; exact hca
        rw [h1, h2]
        simp only [cond_false]
        rw [ih (fun c2 hc2 => hf c2 (List.mem_cons_of_mem c hc2))]

theorem getD_five_blocks {α : Type} (b1 b2 b3 b4 b5 : List α) (n p : Nat) (d : α)
    (h1 : b1.length = n) (h2 : b2.length = n) (h3 : b3.length = n) (h4 : b4.length = n)
    (hp : p < n) :
    (b1 ++ b2 ++ b3 ++ b4 ++ b5).getD p d = b1.getD p d ∧
    (b1 ++ b2 ++ b3 ++ b4 ++ b5).getD (n + p) d = b2.getD p d ∧
    (b1 ++ b2 ++ b3 ++ b4 ++ b5).getD (2 * n + p) d = b3.getD p d ∧
    (b1 ++ b2 ++ b3 ++ b4 ++ b5).getD (3 * n + p) d = b4.getD p d ∧
    (b1 ++ b2 ++ b3 ++ b4 ++ b5).getD (4 * n + p) d = b5.getD p d := by
  have l12 : (b1 ++ b2).length = 2 * n := by rw [List.length_append, h1, h2]; ring
  have l123 : (b1 ++ b2 ++ b3).length = 3 * n := by
    rw [List.length_append, l12, h3]; ring
  have l1234 : (b1 ++ b2 ++ b3 ++ b4).length = 4 * n := by
    rw [List.length_append, l123, h4]; ring
  refine ⟨?_, ?_, ?_, ?_, ?_⟩
  · rw [List.getD_append _ _ _ _ (by omega), List.getD_append _ _ _ _ (by omega),
      List.getD_append _ _ _ _ (by omega), List.getD_append _ _ _ _ (by omega)]
  · rw [List.getD_append _ _ _ _ (by omega), List.getD_append _ _ _ _ (by omega),
      List.getD_append _ _ _ _ (by omega)]
    rw [List.getD_append_right _ _ _ _ (by omega), h1]
    congr 1
    omega
  · rw [List.getD_append _ _ _ _ (by omega), List.getD_append _ _ _ _ (by omega)]
    rw [List.getD_append_right _ _ _ _ (by omega), l12]
    congr 1
    omega
  · rw [List.getD_append _ _ _ _ (by omega)]
    rw [List.getD_append_right _ _ _ _ (by omega), l123]
    congr 1
    omega
  · rw [List.getD_append_right _ _ _ _ (by omega), l1234]
    congr 1
    omega

/-- C4: aggregating the prefix-renamed player table groups the rows by match
identifier and yields one row per identifier present in the input (absent
identifiers give no row), with, for each attribute column originally named
`name`, five columns `<pfx><name>_SUM`, `_MAX`, `_MIN`, `_MEAN`, `_MEDIAN`
holding the sum, maximum, minimum, mean and median of that attribute over all
player rows sharing the identifier. -/
theorem prepare_player_data_aggregates :
    ∀ (t : Table ℚ) (pfx : String), t.cols.Nodup → pfx ≠ "" → "ID" ∈ t.cols →
      (∀ c ∈ t.cols, c ≠ "ID" → pfx ++ c ≠ "ID") →
      (∀ r ∈ t.rows, ∀ j, j < t.cols.length → (cellAt r j).isSome = true) →
      ((DataPreparer.prepare_player_data (DataPreparer.rename_columns t pfx "") pfx).cols
          = "ID" ::
            ((DataPreparer.attrIdxs t).map (fun j => pfx ++ colName t j ++ "_SUM")
              ++ (DataPreparer.attrIdxs t).map (fun j => pfx ++ colName t j ++ "_MAX")
              ++ (DataPreparer.attrIdxs t).map (fun j => pfx ++ colName t j ++ "_MIN")
              ++ (DataPreparer.attrIdxs t).map (fun j => pfx ++ colName t j ++ "_MEAN")
              ++ (DataPreparer.attrIdxs t).map (fun j => pfx ++ colName t j ++ "_MEDIAN")) ∧
        (∀ v : ℚ,
          (∃ r ∈ t.rows, cellAt r (t.cols.indexOf "ID") = some v) ↔
          (∃ row ∈ (DataPreparer.prepare_player_data
              (DataPreparer.rename_columns t pfx "") pfx).rows,
            cellAt row 0 = some v)) ∧
        (∀ v : ℚ, ∀ r0 ∈ t.rows, cellAt r0 (t.cols.indexOf "ID") = some v →
          DataPreparer.aggRow (DataPreparer.rename_columns t pfx "") v
              ∈ (DataPreparer.prepare_player_data
                  (DataPreparer.rename_columns t pfx "") pfx).rows ∧
          (∀ p, p < (DataPreparer.attrIdxs t).length →
            DataPreparer.groupObs t v ((DataPreparer.attrIdxs t).getD p 0) ≠ [] ∧
            cellAt (DataPreparer.aggRow (DataPreparer.rename_columns t pfx "") v) (p + 1)
              = some (DataPreparer.groupObs t v ((DataPreparer.attrIdxs t).getD p 0)).sum ∧
            (∃ m, cellAt (DataPreparer.aggRow (DataPreparer.rename_columns t pfx "") v)
                ((DataPreparer.attrIdxs t).length + p + 1) = some m ∧
              m ∈ DataPreparer.groupObs t v ((DataPreparer.attrIdxs t).getD p 0) ∧
              ∀ x ∈ DataPreparer.groupObs t v ((DataPreparer.attrIdxs t).getD p 0), x ≤ m) ∧
            (∃ m, cellAt (DataPreparer.aggRow (DataPreparer.rename_columns t pfx "") v)
                (2 * (DataPreparer.attrIdxs t).length + p + 1) = some m ∧
              m ∈ DataPreparer.groupObs t v ((DataPreparer.attrIdxs t).getD p 0) ∧
              ∀ x ∈ DataPreparer.groupObs t v ((DataPreparer.attrIdxs t).getD p 0), m ≤ x) ∧
            cellAt (DataPreparer.aggRow (DataPreparer.rename_columns t pfx "") v)
                (3 * (DataPreparer.attrIdxs t).length + p + 1)
              = some ((DataPreparer.groupObs t v ((DataPreparer.attrIdxs t).getD p 0)).sum
                  / ((DataPreparer.groupObs t v ((DataPreparer.attrIdxs t).getD p 0)).length : ℚ)) ∧
            cellAt (DataPreparer.aggRow (DataPreparer.rename_columns t pfx "") v)
                (4 * (DataPreparer.attrIdxs t).length + p + 1)
              = DataPreparer.medianQ
                  (DataPreparer.groupObs t v ((DataPreparer.attrIdxs t).getD p 0))))) := by
  intro t pfx hnd hpfx hid hmap hobs
  have hucols : (DataPreparer.rename_columns t pfx "").cols
      = t.cols.map (fun c => if c = "ID" then c else pfx ++ c) := by
    show (if pfx = ""
        then t.cols else t.cols.map (fun c => if c = "ID" then c else pfx ++ c)) = _
    rw [if_neg hpfx]
  have hurows : (DataPreparer.rename_columns t pfx "").rows = t.rows := rfl
  have hf : ∀ c ∈ t.cols,
      ((fun c => if c = "ID" then c else pfx ++ c) c = "ID" ↔ c = "ID") := by
    intro c hc
    show (if c = "ID" then c else pfx ++ c) = "ID" ↔ c = "ID"
    by_cases hcID : c = "ID"
    · rw [if_pos hcID]
    · rw [if_neg hcID]
      exact ⟨fun he => absurd he (hmap c hc hcID), fun he => absurd he hcID⟩
  have hidxu : (DataPreparer.rename_columns t pfx "").cols.indexOf "ID"
      = t.cols.indexOf "ID" := by
    rw [hucols]
    exact indexOf_map_eq t.cols _ "ID" hf
  have hlenu : (DataPreparer.rename_columns t pfx "").cols.length = t.cols.length := by
    rw [hucols, List.length_map]
  have hattru : DataPreparer.attrIdxs (DataPreparer.rename_columns t pfx "")
      = DataPreparer.attrIdxs t := by
    rw [DataPreparer.attrIdxs, DataPreparer.attrIdxs, hlenu, hidxu]
  have hgrp : ∀ v, DataPreparer.groupRows (DataPreparer.rename_columns t pfx "") v
      = DataPreparer.groupRows t v := by
    intro v
    rw [DataPreparer.groupRows, DataPreparer.groupRows, hidxu, hurows]
  have hgobs : ∀ v j, DataPreparer.groupObs (DataPreparer.rename_columns t pfx "") v j
      = DataPreparer.groupObs t v j := by
    intro v j
    rw [DataPreparer.groupObs, DataPreparer.groupObs, hgrp]
  have hkeys : DataPreparer.idKeys (DataPreparer.rename_columns t pfx "")
      = DataPreparer.idKeys t := by
    rw [DataPreparer.idKeys, DataPreparer.idKeys, hidxu, colCells, colCells, hurows]
  have hsorted : DataPreparer.sortedIdKeys (DataPreparer.rename_columns t pfx "")
      = DataPreparer.sortedIdKeys t := by
    rw [DataPreparer.sortedIdKeys, DataPreparer.sortedIdKeys, hkeys]
  have hRrows : (DataPreparer.prepare_player_data
      (DataPreparer.rename_columns t pfx "") pfx).rows
      = (DataPreparer.sortedIdKeys (DataPreparer.rename_columns t pfx "")).map
          (DataPreparer.aggRow (DataPreparer.rename_columns t pfx "")) := rfl
  have hname : ∀ j ∈ DataPreparer.attrIdxs t,
      colName (DataPreparer.rename_columns t pfx "") j = pfx ++ colName t j := by
    intro j hj
    have hjf := List.mem_filter.mp hj
    have hjlt : j < t.cols.length := List.mem_range.mp hjf.1
    have hjne : j ≠ t.cols.indexOf "ID" := by simpa using hjf.2
    have hnameId : t.cols.getD j "" ≠ "ID" := by
      intro he
      apply hjne
      have hilt : t.cols.indexOf "ID" < t.cols.length := List.indexOf_lt_length.mpr hid
      have e2 : t.cols[j] = t.cols[t.cols.indexOf "ID"] := by
        rw [List.getElem_indexOf hilt, ← List.getD_eq_getElem t.cols "" hjlt]
        exact he
      exact (List.Nodup.getElem_inj_iff hnd).mp e2
    rw [colName, hucols, getD_map_lt _ _ _ hjlt "" "", if_neg hnameId]
    rfl
  have hpresent : ∀ v : ℚ, ∀ r ∈ t.rows, cellAt r (t.cols.indexOf "ID") = some v →
      v ∈ DataPreparer.sortedIdKeys (DataPreparer.rename_columns t pfx "") := by
    intro v r hr hcell
    have hv : v ∈ DataPreparer.idKeys t := by
      rw [DataPreparer.idKeys, List.mem_dedup, List.mem_filterMap]
      exact ⟨cellAt r (t.cols.indexOf "ID"),
        List.mem_map_of_mem (fun r => cellAt r (t.cols.indexOf "ID")) hr, hcell⟩
    rw [hsorted, DataPreparer.sortedIdKeys]
    exact (List.perm_insertionSort _ _).mem_iff.mpr hv
  refine ⟨?_, ?_, ?_⟩
  · show ("ID" ::
        ((DataPreparer.attrIdxs (DataPreparer.rename_columns t pfx "")).map
            (fun j => colName (DataPreparer.rename_columns t pfx "") j ++ "_SUM")
          ++ (DataPreparer.attrIdxs (DataPreparer.rename_columns t pfx "")).map
            (fun j => colName (DataPreparer.rename_columns t pfx "") j ++ "_MAX")
          ++ (DataPreparer.attrIdxs (DataPreparer.rename_columns t pfx "")).map
            (fun j => colName (DataPreparer.rename_columns t pfx "") j ++ "_MIN")
          ++ (DataPreparer.attrIdxs (DataPreparer.rename_columns t pfx "")).map
            (fun j => colName (DataPreparer.rename_columns t pfx "") j ++ "_MEAN")
          ++ (DataPreparer.attrIdxs (DataPreparer.rename_columns t pfx "")).map
            (fun j => colName (DataPreparer.rename_columns t pfx "") j ++ "_MEDIAN"))) = _
    rw [hattru]
    have hblk : ∀ sfx : String,
        (DataPreparer.attrIdxs t).map
            (fun j => colName (DataPreparer.rename_columns t pfx "") j ++ sfx)
          = (DataPreparer.attrIdxs t).map (fun j => pfx ++ colName t j ++ sfx) := by
      intro sfx
      apply List.map_congr_left
      intro j hj
      rw [hname j hj]
    rw [hblk "_SUM", hblk "_MAX", hblk "_MIN", hblk "_MEAN", hblk "_MEDIAN"]
  · intro v
    constructor
    · rintro ⟨r, hr, hcell⟩
      refine ⟨DataPreparer.aggRow (DataPreparer.rename_columns t pfx "") v, ?_, rfl⟩
      rw [hRrows]
      exact List.mem_map_of_mem _ (hpresent v r hr hcell)
    · rintro ⟨row, hrow, hcell⟩
      rw [hRrows] at hrow
      obtain ⟨v2, hv2, hrow2⟩ := List.mem_map.mp hrow
      have hv2v : v2 = v := by
        have e1 : cellAt row 0 = some v2 := by rw [← hrow2]; rfl
        rw [e1] at hcell
        exact Option.some.inj hcell
      rw [← hv2v]
      rw [hsorted, DataPreparer.sortedIdKeys] at hv2
      have hvk : v2 ∈ DataPreparer.idKeys t :=
        (List.perm_insertionSort _ _).mem_iff.mp hv2
      rw [DataPreparer.idKeys, List.mem_dedup, List.mem_filterMap] at hvk
      obtain ⟨a, ha, hav⟩ := hvk
      rw [colCells] at ha
      obtain ⟨r, hr, har⟩ := List.mem_map.mp ha
      refine ⟨r, hr, ?_⟩
      show cellAt r (t.cols.indexOf "ID") = some v2
      rw [har]
      exact hav
  · intro v r0 hr0 hcell
    constructor
    · rw [hRrows]
      exact List.mem_map_of_mem _ (hpresent v r0 hr0 hcell)
    · intro p hp
      have hjmem : (DataPreparer.attrIdxs t).getD p 0 ∈ DataPreparer.attrIdxs t := by
        rw [List.getD_eq_getElem _ _ hp]
        exact List.getElem_mem hp
      have hjlt : (DataPreparer.attrIdxs t).getD p 0 < t.cols.length :=
        List.mem_range.mp (List.mem_filter.mp hjmem).1
      have hr0g : r0 ∈ DataPreparer.groupRows t v := by
        rw [DataPreparer.groupRows]
        exact List.mem_filter.mpr ⟨hr0, beq_iff_eq.mpr hcell⟩
      have hsome := hobs r0 hr0 ((DataPreparer.attrIdxs t).getD p 0) hjlt
      obtain ⟨x, hx⟩ := Option.isSome_iff_exists.mp hsome
      have hxg : x ∈ DataPreparer.groupObs t v ((DataPreparer.attrIdxs t).getD p 0) := by
        rw [DataPreparer.groupObs, List.mem_filterMap]
        exact ⟨r0, hr0g, hx⟩
      have hne : DataPreparer.groupObs t v ((DataPreparer.attrIdxs t).getD p 0) ≠ [] :=
        List.ne_nil_of_mem hxg
      have hlenb : ∀ f : Nat → Option ℚ,
          ((DataPreparer.attrIdxs (DataPreparer.rename_columns t pfx "")).map f).length
            = (DataPreparer.attrIdxs t).length := by
        intro f
        rw [hattru, List.length_map]
      have hplt : p < (DataPreparer.attrIdxs (DataPreparer.rename_columns t pfx "")).length := by
        rw [hattru]
        exact hp
      have hcells := getD_five_blocks
        ((DataPreparer.attrIdxs (DataPreparer.rename_columns t pfx "")).map
          (fun j => some (DataPreparer.groupObs (DataPreparer.rename_columns t pfx "") v j).sum))
        ((DataPreparer.attrIdxs (DataPreparer.rename_columns t pfx "")).map
          (fun j => DataPreparer.maxQ (DataPreparer.groupObs (DataPreparer.rename_columns t pfx "") v j)))
        ((DataPreparer.attrIdxs (DataPreparer.rename_columns t pfx "")).map
          (fun j => DataPreparer.minQ (DataPreparer.groupObs (DataPreparer.rename_columns t pfx "") v j)))
        ((DataPreparer.attrIdxs (DataPreparer.rename_columns t pfx "")).map
          (fun j => DataPreparer.meanQ (DataPreparer.groupObs (DataPreparer.rename_columns t pfx "") v j)))
        ((DataPreparer.attrIdxs (DataPreparer.rename_columns t pfx "")).map
          (fun j => DataPreparer.medianQ (DataPreparer.groupObs (DataPreparer.rename_columns t pfx "") v j)))
        (DataPreparer.attrIdxs t).length p none
        (hlenb _) (hlenb _) (hlenb _) (hlenb _) hp
      have hblockval : ∀ f : Nat → Option ℚ,
          ((DataPreparer.attrIdxs (DataPreparer.rename_columns t pfx "")).map f).getD p none
            = f ((DataPreparer.attrIdxs t).getD p 0) := by
        intro f
        rw [getD_map_lt f _ p hplt 0 none, hattru]
      have hcell1 : ∀ k : Nat,
          cellAt (DataPreparer.aggRow (DataPreparer.rename_columns t pfx "") v) (k + 1)
            = (((DataPreparer.attrIdxs (DataPreparer.rename_columns t pfx "")).map
                  (fun j => some (DataPreparer.groupObs (DataPreparer.rename_columns t pfx "") v j).sum)
                ++ (DataPreparer.attrIdxs (DataPreparer.rename_columns t pfx "")).map
                  (fun j => DataPreparer.maxQ (DataPreparer.groupObs (DataPreparer.rename_columns t pfx "") v j))
                ++ (DataPreparer.attrIdxs (DataPreparer.rename_columns t pfx "")).map
                  (fun j => DataPreparer.minQ (DataPreparer.groupObs (DataPreparer.rename_columns t pfx "") v j))
                ++ (DataPreparer.attrIdxs (DataPreparer.rename_columns t pfx "")).map
                  (fun j => DataPreparer.meanQ (DataPreparer.groupObs (DataPreparer.rename_columns t pfx "") v j))
                ++ (DataPreparer.attrIdxs (DataPreparer.rename_columns t pfx "")).map
                  (fun j => DataPreparer.medianQ (DataPreparer.groupObs (DataPreparer.rename_columns t pfx "") v j)))).getD
                k none := by
        intro k
        rw [DataPreparer.aggRow, cellAt, List.getD_cons_succ]
      refine ⟨hne, ?_, ?_, ?_, ?_, ?_⟩
      · rw [hcell1 p, hcells.1, hblockval, hgobs]
      · rw [hcell1 ((DataPreparer.attrIdxs t).length + p), hcells.2.1, hblockval, hgobs]
        cases hmx : (DataPreparer.groupObs t v ((DataPreparer.attrIdxs t).getD p 0)).maximum with
        | bot => exact absurd (List.maximum_eq_none.mp hmx) hne
        | coe m =>
            refine ⟨m, ?_, List.maximum_mem hmx, fun x hx2 => List.le_maximum_of_mem hx2 hmx⟩
            rw [DataPreparer.maxQ, hmx]
            rfl
      · rw [hcell1 (2 * (DataPreparer.attrIdxs t).length + p), hcells.2.2.1, hblockval, hgobs]
        cases hmn : (DataPreparer.groupObs t v ((DataPreparer.attrIdxs t).getD p 0)).minimum with
        | top => exact absurd (List.minimum_eq_none.mp hmn) hne
        | coe m =>
            refine ⟨m, ?_, List.minimum_mem hmn, fun x hx2 => List.minimum_le_of_mem hx2 hmn⟩
            rw [DataPreparer.minQ, hmn]
            rfl
      · rw [hcell1 (3 * (DataPreparer.attrIdxs t).length + p), hcells.2.2.2.1, hblockval, hgobs,
          DataPreparer.meanQ, if_neg hne]
      · rw [hcell1 (4 * (DataPreparer.attrIdxs t).length + p), hcells.2.2.2.2, hblockval, hgobs]

/-- Witness for `prepare_player_data_aggregates` at the spec's example: match
1 with goal counts 2 and 3 aggregates to SUM 5, MAX 3, MIN 2, MEAN 5/2,
MEDIAN 5/2, under columns `P_goals_SUM` … `P_goals_MEDIAN`. -/
theorem prepare_player_data_aggregates_witness :
    DataPreparer.aggRow (DataPreparer.rename_columns goalsTable "P_" "") 1
        ∈ (DataPreparer.prepare_player_data
            (DataPreparer.rename_columns goalsTable "P_" "") "P_").rows ∧
    DataPreparer.groupObs goalsTable 1 1 = [2, 3] ∧
    (DataPreparer.groupObs goalsTable 1 1).sum = 5 ∧
    DataPreparer.maxQ (DataPreparer.groupObs goalsTable 1 1) = some 3 ∧
    DataPreparer.minQ (DataPreparer.groupObs goalsTable 1 1) = some 2 ∧
    DataPreparer.meanQ (DataPreparer.groupObs goalsTable 1 1) = some (5 / 2) ∧
    DataPreparer.medianQ (DataPreparer.groupObs goalsTable 1 1) = some (5 / 2) ∧
    (DataPreparer.prepare_player_data
        (DataPreparer.rename_columns goalsTable "P_" "") "P_").cols
      = ["ID", "P_goals_SUM", "P_goals_MAX", "P_goals_MIN", "P_goals_MEAN",
          "P_goals_MEDIAN"] := by
  have happ := (prepare_player_data_aggregates goalsTable "P_" (by decide) (by decide)
    (by decide) (by decide) (by decide)).2.2 1 [some 1, some 2] (by decide) (by decide)
  have hobs : DataPreparer.groupObs goalsTable 1 1 = [2, 3] := by decide
  refine ⟨happ.1, hobs, ?_, by decide, by decide, ?_, ?_, by decide⟩
  · rw [hobs]
    norm_num [List.sum_cons, List.sum_nil]
  · rw [hobs, DataPreparer.meanQ, if_neg (by decide : ([2, 3] : List ℚ) ≠ [])]
    norm_num [List.sum_cons, List.sum_nil]
  · have hs : List.insertionSort (fun a b => a ≤ b) ([2, 3] : List ℚ) = [2, 3] := by
      decide
    rw [hobs, DataPreparer.medianQ, if_neg (by decide : ([2, 3] : List ℚ) ≠ [])]
    simp only [hs]
    norm_num

theorem get_data_false_feature_columns (env : DataScaler.Env) :
    (DataScaler.get_data false env).feature_columns
      = DataScaler.prepared_feature_columns env.testTable := rfl

/-- C1 is violated by the code: in test mode `get_data` never reads the
training table at all — its output is a function of the test parquet alone,
because `prepare_data` branches on `self.train = False` and therefore loads
and prepares the TEST parquet, whose statistics then serve as the
"reference" (`train_data` at GetData.py line 124 holds prepared test data).
Two runs with identical training tables but different test tables produce
different feature-column sets, so statistics derived from the test data do
influence the scaled test output. -/
theorem get_data_test_mode_leaks :
    (∀ e1 e2 : DataScaler.Env, e1.testTable = e2.testTable →
        DataScaler.get_data false e1 = DataScaler.get_data false e2) ∧
    envVarying.trainTable = envConstant.trainTable ∧
    (DataScaler.get_data false envVarying).feature_columns
      ≠ (DataScaler.get_data false envConstant).feature_columns := by
  refine ⟨?_, rfl, ?_⟩
  · intro e1 e2 h
    obtain ⟨tr1, te1⟩ := e1
    obtain ⟨tr2, te2⟩ := e2
    simp only at h
    subst h
    simp only [DataScaler.get_data, DataScaler.prepare_data, DataScaler.load_data,
      Bool.false_eq_true, if_false]
  · have hrange : List.range 2 = [0, 1] := rfl
    have hnames1 : DataScaler.sparseDropNames envVarying.testTable (1 / 5) = [] := by
      have h0 : DataScaler.missCount envVarying.testTable 0 = 0 := by decide
      have h1 : DataScaler.missCount envVarying.testTable 1 = 0 := by decide
      have h2 : envVarying.testTable.rows.length = 2 := by decide
      have h3 : envVarying.testTable.cols.length = 2 := by decide
      rw [DataScaler.sparseDropNames, h3, hrange, List.filter_cons, List.filter_cons,
        List.filter_nil, DataScaler.missFrac, DataScaler.missFrac, h0, h1, h2]
      norm_num
    have hnames2 : DataScaler.sparseDropNames envConstant.testTable (1 / 5) = [] := by
      have h0 : DataScaler.missCount envConstant.testTable 0 = 0 := by decide
      have h1 : DataScaler.missCount envConstant.testTable 1 = 0 := by decide
      have h2 : envConstant.testTable.rows.length = 2 := by decide
      have h3 : envConstant.testTable.cols.length = 2 := by decide
      rw [DataScaler.sparseDropNames, h3, hrange, List.filter_cons, List.filter_cons,
        List.filter_nil, DataScaler.missFrac, DataScaler.missFrac, h0, h1, h2]
      norm_num
    have hA : DataScaler.prepared_feature_columns envVarying.testTable = ["A"] := by
      rw [DataScaler.prepared_feature_columns, DataScaler.cleanColumns,
        DataScaler.dropSparse]
      simp only [hnames1]
      decide
    have hB : DataScaler.prepared_feature_columns envConstant.testTable = [] := by
      rw [DataScaler.prepared_feature_columns, DataScaler.cleanColumns,
        DataScaler.dropSparse]
      simp only [hnames2]
      decide
    rw [get_data_false_feature_columns, get_data_false_feature_columns, hA, hB]
    decide

/-- Witness for `get_data_test_mode_leaks`: two environments with equal test
tables (but different training tables) give identical test-mode outputs. -/
theorem get_data_test_mode_leaks_witness :
    DataScaler.get_data false ⟨⟨["ID"], []⟩, envVarying.testTable⟩
      = DataScaler.get_data false ⟨⟨["ID", "B"], [[some 1, some 4]]⟩, envVarying.testTable⟩ :=
  get_data_test_mode_leaks.1 ⟨⟨["ID"], []⟩, envVarying.testTable⟩
    ⟨⟨["ID", "B"], [[some 1, some 4]]⟩, envVarying.testTable⟩ rfl

end MLQRT
